import Mathlib

/-!
Shallow embedding of `src/anl/anl2024/runner.py` (the ANL 2024 scenario
generator and tournament entry point) and proofs about it.

Modelling conventions:

* Python floats are modelled as exact rationals (`ℚ`); the claims of the spec are
  stated "up to floating tolerance", which the exact model subsumes.
* The single process-wide random generator (the Python `random` module) is
  modelled as an explicit stream of uniform draws `s : List ℚ`, each intended
  to lie in `[0, 1)`.  Every call that consumes randomness pops one draw and
  returns the remaining stream, so the result of a function is determined by its
  arguments and the incoming stream — exactly the "no other hidden global
  state" discipline of the source.  `random.random()` returns the draw
  itself; `random.randint(a, b)` maps a draw `u ∈ [0,1)` to
  `a + ⌊u * (b - a + 1)⌋`, the uniform-integer semantics of the generator.
  An exhausted stream yields the in-range default draw `0` (the real
  generator never exhausts).
* Fallible Python code is modelled with `Except PyError`: `runner.py` itself
  raises no exception deliberately, but `random.randint(a, b)` raises
  `ValueError` when `a > b`, and the table construction divides by `n - 1`,
  which raises `ZeroDivisionError` when the outcome count `n` is `1` and at
  least one scenario is built.  `make_scenarios` contains no validation code,
  so no `ConfigurationError` can arise in it.
* The outcome labels are the Python strings `f"{i}_{n-1-i}"`, later parsed
  back by `int(str(_).split("_")[k])`.  Since the two decimal components
  contain no underscore, formatting and re-parsing are mutually inverse; the
  embedding therefore represents a label directly by its pair of shares
  `(i, n - 1 - i) : Nat × Nat`, and `split("_")[k]` by projection `k`.
-/

namespace ANL2024

/-- Errors the modelled Python code can raise.  `configurationError` stands for
the `ConfigurationError` kind named by the specification; it is included so
that statements about it can be made, although no path of `runner.py` raises
it. -/
inductive PyError where
  | configurationError
  | zeroDivisionError
  | valueError
deriving DecidableEq, Repr

/-- One draw from the process-wide generator: pop the head of the stream
(default `0` if exhausted — the real generator never exhausts). -/
def nextRand (s : List ℚ) : ℚ × List ℚ :=
  match s with
  | [] => (0, [])
  | u :: rest => (u, rest)

/-- All draws of a stream lie in `[0, 1)` — the contract of
`random.random()`.  Note the default draw `0` of an exhausted stream also
lies in `[0, 1)`. -/
def Bounded01 (s : List ℚ) : Prop := ∀ u ∈ s, 0 ≤ u ∧ u < 1

/-- Model of `random.randint(a, b)`: raises `ValueError` when `a > b`,
otherwise consumes one uniform draw `u` and returns `a + ⌊u * (b - a + 1)⌋`,
which lies in `[a, b]` for `u ∈ [0, 1)`. -/
def randint (a b : Nat) (s : List ℚ) : Except PyError (Nat × List ℚ) :=
  if b < a then .error .valueError
  else
    .ok (a + Nat.floor ((nextRand s).1 * ((b : ℚ) - (a : ℚ) + 1)), (nextRand s).2)

/-- Model of `onein` (runner.py:45-50): a fixed count is returned as is; a
pair `(a, b)` with `a = b` returns `a` without consuming randomness,
otherwise `random.randint(a, b)` is called. -/
def onein (x : Nat ⊕ (Nat × Nat)) (s : List ℚ) : Except PyError (Nat × List ℚ) :=
  match x with
  | .inl n => .ok (n, s)
  | .inr (a, b) => if a = b then .ok (a, s) else randint a b s

/-- The outcome labels of the `portions` issue (runner.py:63):
`[f"{i}_{n-1-i}" for i in range(n)]`, each label represented by its pair of
shares `(i, n - 1 - i)`. -/
def portionsIssue (n : Nat) : List (Nat × Nat) :=
  (List.range n).map fun i => (i, n - 1 - i)

/-- Model of `int(str(_).split("_")[k])` on a label `"{a}_{b}"` represented
as the pair `(a, b)`: component `0` is `a`, component `1` is `b`. -/
def splitShare (o : Nat × Nat) (k : Nat) : Nat :=
  if k = 0 then o.1 else o.2

/-- The table of the `TableFun` built at runner.py:70-75 for role `k`
(`0` = First, `1` = Second): each outcome label maps to
`int(str(_).split("_")[k]) / (n - 1)`.  (In ℚ the `n = 1` division yields the
junk value `0`; `make_scenarios` raises `ZeroDivisionError` before any such
table is returned, mirroring Python.) -/
def tableFun (n k : Nat) : List ((Nat × Nat) × ℚ) :=
  (portionsIssue n).map fun o => (o, (splitShare o k : ℚ) / ((n : ℚ) - 1))

/-- Python `dict` lookup on the association-list model of a `TableFun`
table (keys are unique, so first match is the match). -/
def dictGet (d : List ((Nat × Nat) × ℚ)) (o : Nat × Nat) : ℚ :=
  match d with
  | [] => 0
  | (key, v) :: rest => if key = o then v else dictGet rest o

/-- The small constant `1e-8` of runner.py:77, as an exact rational. -/
def eps : ℚ := 1 / 100000000

/-- The reserved-value sample of runner.py:77:
`r[0] + 1e-8 + random.random() * (r[1] - r[0] - 1e-8)`, with the uniform
draw `u` passed explicitly. -/
def sampleReserved (r : ℚ × ℚ) (u : ℚ) : ℚ :=
  r.1 + eps + u * (r.2 - r.1 - eps)

/-- The outcome space `make_os(issues, name=f"DivideTyePie{i}")` of
runner.py:78: the single `portions` issue plus the (misspelled) name. -/
structure OutcomeSpace where
  outcomes : List (Nat × Nat)
  name : String
deriving DecidableEq, Repr

/-- A `LinearAdditiveUtilityFunction` as constructed at runner.py:68-79: one
table-valued function, a name, a reserved value and an outcome space. -/
structure UFun where
  values : List ((Nat × Nat) × ℚ)
  name : String
  reserved_value : ℚ
  outcome_space : OutcomeSpace
deriving DecidableEq, Repr

/-- A negmas `Scenario` as built at runner.py:85-91: an outcome space (taken
from the first ufun) and the ufuns. -/
structure Scenario where
  outcome_space : OutcomeSpace
  ufuns : List UFun
deriving DecidableEq, Repr

/-- The outcome space object built per ufun of scenario `i`. -/
def osOf (n i : Nat) : OutcomeSpace :=
  { outcomes := portionsIssue n, name := "DivideTyePie" ++ toString i }

/-- The ufun for role `k` (`0` named "First", `1` named "Second") of scenario
`i`, given its reserved range `r` and its uniform draw `u`
(runner.py:67-82). -/
def ufunOf (n k : Nat) (uname : String) (r : ℚ × ℚ) (i : Nat) (u : ℚ) : UFun :=
  { values := tableFun n k
    name := uname ++ toString i
    reserved_value := sampleReserved r u
    outcome_space := osOf n i }

/-- Scenario `i` as a pure function of the two uniform draws consumed for its
two reserved values (draw of the first role first, matching the Python evaluation
order of the generator expression at runner.py:66-83). -/
def scenarioOf (n : Nat) (rr : (ℚ × ℚ) × (ℚ × ℚ)) (i : Nat) (u0 u1 : ℚ) : Scenario :=
  { outcome_space := (ufunOf n 0 "First" rr.1 i u0).outcome_space
    ufuns := [ufunOf n 0 "First" rr.1 i u0, ufunOf n 1 "Second" rr.2 i u1] }

/-- Build scenario `i`, consuming two draws from the stream. -/
def mkScenario (n : Nat) (rr : (ℚ × ℚ) × (ℚ × ℚ)) (i : Nat) (s : List ℚ) :
    Scenario × List ℚ :=
  let p0 := nextRand s
  let p1 := nextRand p0.2
  (scenarioOf n rr i p0.1 p1.1, p1.2)

/-- Build the scenarios for indices `i, i+1, …, i+c-1` in order, threading
the draw stream (the list comprehension of runner.py:66-84 followed by the
`Scenario(...)` wrapping of runner.py:85-91). -/
def buildScenarios (n : Nat) (rr : (ℚ × ℚ) × (ℚ × ℚ)) (i : Nat) :
    Nat → List ℚ → List Scenario × List ℚ
  | 0, s => ([], s)
  | c + 1, s =>
    let p := mkScenario n rr i s
    let rest := buildScenarios n rr (i + 1) c p.2
    (p.1 :: rest.1, rest.2)

/-- Model of `make_scenarios` (runner.py:52-91).  `n_outcomes` is either a
fixed count (`.inl`) or an inclusive range (`.inr`), resolved once by
`onein`.  The reserved ranges are a pair of `(low, high)` pairs, matching the
`RESERVED_RANGES` annotation.  The only failure paths are the ones the Python
actually has: `ValueError` from `random.randint` on an inverted range, and
`ZeroDivisionError` from `.../(n - 1)` when `n = 1` and at least one
table of a scenario is built (the division is the first effect of building a
scenario, before any `random.random()` call, so no draws are consumed on
that path).  No input validation of any kind is performed. -/
def make_scenarios (n_scenarios : Nat) (n_outcomes : Nat ⊕ (Nat × Nat))
    (reserved_ranges : (ℚ × ℚ) × (ℚ × ℚ)) (s : List ℚ) :
    Except PyError (List Scenario × List ℚ) :=
  match onein n_outcomes s with
  | .error e => .error e
  | .ok (n, s1) =>
    if n = 1 ∧ 1 ≤ n_scenarios then .error .zeroDivisionError
    else .ok (buildScenarios n reserved_ranges 0 n_scenarios s1)

/-- The default `reserved_ranges` argument of `make_scenarios`
(runner.py:57): `((0.0, 0.499999), (0.0, 0.499999))`. -/
def defaultReservedRanges : (ℚ × ℚ) × (ℚ × ℚ) :=
  ((0, 499999 / 1000000), (0, 499999 / 1000000))

/-- Returns `true` exactly on the `ConfigurationError` outcome; used to
state the error-handling claims of the specification. -/
def isConfigurationError {α : Type} : Except PyError α → Bool
  | .error .configurationError => true
  | _ => false

/-- Model of `DEFAULT_TOURNAMENT_PATH = Path.home() / "negmas" / "anl2024" /
"tournaments"` (runner.py:40), with the home directory passed explicitly and
paths rendered as `/`-joined strings. -/
def DEFAULT_TOURNAMENT_PATH (home : String) : String :=
  home ++ "/negmas/anl2024/tournaments"

/-- Model of the log-path computation of `anl2024_tournament`
(runner.py:148-153): with `nologs` no path is passed (persistence disabled);
otherwise the base path (defaulting to `DEFAULT_TOURNAMENT_PATH`) is joined
with the given name, or with a freshly generated unique name
(`unique_name("anl")`, passed here as `freshName`) when the name is absent —
the Python `name if name else ...` also treats the empty string as absent. -/
def anl2024_tournament_path (nologs : Bool) (base_path : Option String)
    (name : Option String) (freshName home : String) : Option String :=
  if nologs then none
  else
    let dir := match base_path with
      | some bp => bp
      | none => DEFAULT_TOURNAMENT_PATH home
    let leaf := match name with
      | some nm => if nm = "" then freshName else nm
      | none => freshName
    some (dir ++ "/" ++ leaf)

/-! ## Helper lemmas -/

lemma eps_pos : 0 < eps := by norm_num [eps]

lemma nextRand_bounded {s : List ℚ} (h : Bounded01 s) :
    (0 ≤ (nextRand s).1 ∧ (nextRand s).1 < 1) ∧ Bounded01 (nextRand s).2 := by
  cases s with
  | nil => exact ⟨⟨le_refl 0, one_pos⟩, fun u hu => absurd hu (List.not_mem_nil u)⟩
  | cons u rest =>
    exact ⟨h u (List.mem_cons_self u rest), fun v hv => h v (List.mem_cons_of_mem u hv)⟩

lemma portionsIssue_length (n : Nat) : (portionsIssue n).length = n := by
  simp [portionsIssue]

lemma mem_portionsIssue {n i : Nat} (hi : i < n) : (i, n - 1 - i) ∈ portionsIssue n := by
  simp only [portionsIssue, List.mem_map, List.mem_range]
  exact ⟨i, hi, rfl⟩

lemma mem_portionsIssue_elim {n : Nat} {o : Nat × Nat} (ho : o ∈ portionsIssue n) :
    ∃ i, i < n ∧ o = (i, n - 1 - i) := by
  simp only [portionsIssue, List.mem_map, List.mem_range] at ho
  obtain ⟨i, hi, rfl⟩ := ho
  exact ⟨i, hi, rfl⟩

lemma portionsIssue_get (n i : Nat) (h : i < (portionsIssue n).length) :
    (portionsIssue n).get ⟨i, h⟩ = (i, n - 1 - i) := by
  simp [portionsIssue]

lemma dictGet_map (f : Nat × Nat → ℚ) (l : List (Nat × Nat)) (o : Nat × Nat)
    (ho : o ∈ l) : dictGet (l.map fun x => (x, f x)) o = f o := by
  induction l with
  | nil => cases ho
  | cons x xs ih =>
    simp only [List.map_cons, dictGet]
    by_cases hx : x = o
    · subst hx; simp
    · simp only [hx, if_false]
      exact ih (by cases List.mem_cons.mp ho with
        | inl h => exact absurd h.symm hx
        | inr h => exact h)

lemma dictGet_tableFun {n k i : Nat} (hi : i < n) :
    dictGet (tableFun n k) (i, n - 1 - i) =
      (splitShare (i, n - 1 - i) k : ℚ) / ((n : ℚ) - 1) :=
  dictGet_map _ _ _ (mem_portionsIssue hi)

lemma splitShare_zero (o : Nat × Nat) : splitShare o 0 = o.1 := rfl

lemma splitShare_one (o : Nat × Nat) : splitShare o 1 = o.2 := by
  simp [splitShare]

lemma tableVal_sum {n i : Nat} (hn : 2 ≤ n) (hi : i < n) :
    (splitShare (i, n - 1 - i) 0 : ℚ) / ((n : ℚ) - 1) +
      (splitShare (i, n - 1 - i) 1 : ℚ) / ((n : ℚ) - 1) = 1 := by
  rw [splitShare_zero, splitShare_one]
  have hcast : ((n - 1 - i : Nat) : ℚ) = (n : ℚ) - 1 - (i : ℚ) := by
    have h1 : n - 1 - i = n - (1 + i) := by omega
    rw [h1, Nat.cast_sub (by omega : 1 + i ≤ n)]
    push_cast
    ring
  have hne : (n : ℚ) - 1 ≠ 0 := by
    have h2 : (2 : ℚ) ≤ (n : ℚ) := by exact_mod_cast hn
    linarith
  rw [div_add_div_same, hcast]
  field_simp

lemma sampleReserved_bounds {r : ℚ × ℚ} {u : ℚ} (hd : eps < r.2 - r.1)
    (hu0 : 0 ≤ u) (hu1 : u < 1) :
    r.1 < sampleReserved r u ∧ sampleReserved r u < r.2 := by
  have hdpos : 0 < r.2 - r.1 - eps := by linarith
  have hprod : 0 ≤ u * (r.2 - r.1 - eps) := mul_nonneg hu0 hdpos.le
  have hlt : u * (r.2 - r.1 - eps) < r.2 - r.1 - eps := by
    calc u * (r.2 - r.1 - eps) < 1 * (r.2 - r.1 - eps) :=
          mul_lt_mul_of_pos_right hu1 hdpos
      _ = r.2 - r.1 - eps := one_mul _
  have he := eps_pos
  constructor
  · unfold sampleReserved; linarith
  · unfold sampleReserved; linarith

lemma buildScenarios_length (n : Nat) (rr : (ℚ × ℚ) × (ℚ × ℚ)) :
    ∀ (c i : Nat) (s : List ℚ), ((buildScenarios n rr i c s).1).length = c := by
  intro c
  induction c with
  | zero => intro i s; rfl
  | succ m ih =>
    intro i s
    simp only [buildScenarios, List.length_cons, ih]

lemma buildScenarios_mem (n : Nat) (rr : (ℚ × ℚ) × (ℚ × ℚ)) :
    ∀ (c i₀ : Nat) (s : List ℚ), Bounded01 s →
      ∀ sc ∈ (buildScenarios n rr i₀ c s).1,
        ∃ i u0 u1, (0 ≤ u0 ∧ u0 < 1) ∧ (0 ≤ u1 ∧ u1 < 1) ∧
          sc = scenarioOf n rr i u0 u1 := by
  intro c
  induction c with
  | zero => intro i₀ s _ sc hsc; cases hsc
  | succ m ih =>
    intro i₀ s hb sc hsc
    obtain ⟨hu0, hb1⟩ := nextRand_bounded hb
    obtain ⟨hu1, hb2⟩ := nextRand_bounded hb1
    rcases List.mem_cons.mp hsc with h | h
    · exact ⟨i₀, (nextRand s).1, (nextRand (nextRand s).2).1, hu0, hu1, h⟩
    · exact ih (i₀ + 1) (nextRand (nextRand s).2).2 hb2 sc h

lemma buildScenarios_shape (n : Nat) (rr : (ℚ × ℚ) × (ℚ × ℚ)) :
    ∀ (c i₀ : Nat) (s : List ℚ),
      ∀ sc ∈ (buildScenarios n rr i₀ c s).1,
        ∃ i u0 u1, sc = scenarioOf n rr i u0 u1 := by
  intro c
  induction c with
  | zero => intro i₀ s sc hsc; cases hsc
  | succ m ih =>
    intro i₀ s sc hsc
    rcases List.mem_cons.mp hsc with h | h
    · exact ⟨i₀, (nextRand s).1, (nextRand (nextRand s).2).1, h⟩
    · exact ih (i₀ + 1) (nextRand (nextRand s).2).2 sc h

lemma scenarioOf_ufuns_eq {n : Nat} {rr : (ℚ × ℚ) × (ℚ × ℚ)} {i : Nat}
    {u0 u1 : ℚ} {uf0 uf1 : UFun}
    (h : (scenarioOf n rr i u0 u1).ufuns = [uf0, uf1]) :
    uf0 = ufunOf n 0 "First" rr.1 i u0 ∧ uf1 = ufunOf n 1 "Second" rr.2 i u1 := by
  simp only [scenarioOf, List.cons.injEq, and_true] at h
  exact ⟨h.1.symm, h.2.symm⟩

lemma scenarioOf_outcomes (n : Nat) (rr : (ℚ × ℚ) × (ℚ × ℚ)) (i : Nat)
    (u0 u1 : ℚ) :
    (scenarioOf n rr i u0 u1).outcome_space.outcomes = portionsIssue n := rfl

lemma onein_bounded {spec : Nat ⊕ (Nat × Nat)} {s s1 : List ℚ} {n : Nat}
    (hb : Bounded01 s) (h : onein spec s = .ok (n, s1)) : Bounded01 s1 := by
  cases spec with
  | inl m =>
    simp only [onein, Except.ok.injEq, Prod.mk.injEq] at h
    rw [← h.2]; exact hb
  | inr ab =>
    obtain ⟨a, b⟩ := ab
    by_cases hab : a = b
    · subst hab
      simp [onein] at h
      rw [← h.2]; exact hb
    · simp only [onein, if_neg hab, randint] at h
      by_cases hba : b < a
      · simp [if_pos hba] at h
      · simp only [if_neg hba, Except.ok.injEq, Prod.mk.injEq] at h
        rw [← h.2]
        exact (nextRand_bounded hb).2

lemma randint_range {a b n : Nat} {s s1 : List ℚ} (hab : a ≤ b) (hb : Bounded01 s)
    (h : randint a b s = .ok (n, s1)) : a ≤ n ∧ n ≤ b := by
  simp only [randint, if_neg (Nat.not_lt.mpr hab), Except.ok.injEq, Prod.mk.injEq] at h
  obtain ⟨⟨hu0, hu1⟩, _⟩ := nextRand_bounded hb
  set u := (nextRand s).1 with hu
  have hmpos : (0 : ℚ) < (b : ℚ) - (a : ℚ) + 1 := by
    have : (a : ℚ) ≤ (b : ℚ) := by exact_mod_cast hab
    linarith
  have hlt : u * ((b : ℚ) - (a : ℚ) + 1) < ((b - a + 1 : Nat) : ℚ) := by
    have h1 : u * ((b : ℚ) - (a : ℚ) + 1) < 1 * ((b : ℚ) - (a : ℚ) + 1) :=
      mul_lt_mul_of_pos_right hu1 hmpos
    have h2 : ((b - a + 1 : Nat) : ℚ) = (b : ℚ) - (a : ℚ) + 1 := by
      rw [Nat.cast_add, Nat.cast_sub hab]
      norm_num
    rw [h2]
    linarith
  have hfloor : Nat.floor (u * ((b : ℚ) - (a : ℚ) + 1)) < b - a + 1 :=
    (Nat.floor_lt (mul_nonneg hu0 hmpos.le)).mpr hlt
  obtain ⟨hn, -⟩ := h
  omega

lemma onein_inr_range {a b n : Nat} {s s1 : List ℚ} (hab : a ≤ b) (hb : Bounded01 s)
    (h : onein (.inr (a, b)) s = .ok (n, s1)) : a ≤ n ∧ n ≤ b := by
  simp only [onein] at h
  by_cases heq : a = b
  · simp only [heq, if_pos rfl, Except.ok.injEq, Prod.mk.injEq] at h
    obtain ⟨h1, -⟩ := h
    omega
  · rw [if_neg heq] at h
    exact randint_range hab hb h

lemma make_scenarios_ok {nsc : Nat} {spec : Nat ⊕ (Nat × Nat)}
    {rr : (ℚ × ℚ) × (ℚ × ℚ)} {s scs_s : List ℚ} {scs : List Scenario}
    (h : make_scenarios nsc spec rr s = .ok (scs, scs_s)) :
    ∃ n s1, onein spec s = .ok (n, s1) ∧ ¬(n = 1 ∧ 1 ≤ nsc) ∧
      buildScenarios n rr 0 nsc s1 = (scs, scs_s) := by
  cases honein : onein spec s with
  | error e => simp [make_scenarios, honein] at h
  | ok p =>
    obtain ⟨n, s1⟩ := p
    by_cases hcond : n = 1 ∧ 1 ≤ nsc
    · simp [make_scenarios, honein, hcond] at h
    · refine ⟨n, s1, rfl, hcond, ?_⟩
      simp only [make_scenarios, honein, if_neg hcond, Except.ok.injEq] at h
      exact h

/-- Characterization of every scenario in a successful `make_scenarios` batch:
it is `scenarioOf n rr i u0 u1` for the shared outcome count `n` and two
in-range uniform draws. -/
lemma make_scenarios_mem {nsc : Nat} {spec : Nat ⊕ (Nat × Nat)}
    {rr : (ℚ × ℚ) × (ℚ × ℚ)} {s scs_s : List ℚ} {scs : List Scenario}
    (hb : Bounded01 s) (h : make_scenarios nsc spec rr s = .ok (scs, scs_s)) :
    ∃ n s1, onein spec s = .ok (n, s1) ∧ scs.length = nsc ∧
      ∀ sc ∈ scs, ∃ i u0 u1, (0 ≤ u0 ∧ u0 < 1) ∧ (0 ≤ u1 ∧ u1 < 1) ∧
        sc = scenarioOf n rr i u0 u1 := by
  obtain ⟨n, s1, honein, _, hbuild⟩ := make_scenarios_ok h
  have hb1 : Bounded01 s1 := onein_bounded hb honein
  refine ⟨n, s1, honein, ?_, ?_⟩
  · have hlen := buildScenarios_length n rr nsc 0 s1
    rw [hbuild] at hlen
    exact hlen
  · intro sc hsc
    refine buildScenarios_mem n rr nsc 0 s1 hb1 sc ?_
    rw [hbuild]
    exact hsc

/-- Structure of every scenario in a successful `make_scenarios` batch,
without assumptions on the draw stream. -/
lemma make_scenarios_shape {nsc : Nat} {spec : Nat ⊕ (Nat × Nat)}
    {rr : (ℚ × ℚ) × (ℚ × ℚ)} {s scs_s : List ℚ} {scs : List Scenario}
    (h : make_scenarios nsc spec rr s = .ok (scs, scs_s)) :
    ∃ n s1, onein spec s = .ok (n, s1) ∧ scs.length = nsc ∧
      ∀ sc ∈ scs, ∃ i u0 u1, sc = scenarioOf n rr i u0 u1 := by
  obtain ⟨n, s1, honein, -, hbuild⟩ := make_scenarios_ok h
  refine ⟨n, s1, honein, ?_, ?_⟩
  · have hlen := buildScenarios_length n rr nsc 0 s1
    rw [hbuild] at hlen
    exact hlen
  · intro sc hsc
    refine buildScenarios_shape n rr nsc 0 s1 sc ?_
    rw [hbuild]
    exact hsc

-- concrete evaluations of the embedding on small inputs
example : portionsIssue 3 = [(0, 2), (1, 1), (2, 0)] := by decide
example : (tableFun 3 0).map Prod.snd = [0, 1/2, 1] := by
  simp [tableFun, portionsIssue, splitShare, List.range_succ]
  norm_num
example : (tableFun 3 1).map Prod.snd = [1, 1/2, 0] := by
  simp [tableFun, portionsIssue, splitShare, List.range_succ]
  norm_num
example :
    make_scenarios 0 (.inl 5) defaultReservedRanges [] = .ok ([], []) := rfl
example :
    make_scenarios 1 (.inl 1) defaultReservedRanges [] =
      .error .zeroDivisionError := rfl
example :
    make_scenarios 1 (.inl 2) defaultReservedRanges [] =
      .ok ([scenarioOf 2 defaultReservedRanges 0 0 0], []) := rfl

/-! ## Claim theorems -/

/-- Claim C1: for every scenario returned by `make_scenarios` (with outcome
count `n ≥ 2`) and every outcome of its outcome space, the utility value of
the first role plus the utility value of the second role for that outcome equals
`1` (exactly, in the rational model — which subsumes "up to floating
tolerance"). -/
theorem make_scenarios_zero_sum
    (nsc n : Nat) (rr : (ℚ × ℚ) × (ℚ × ℚ)) (s scs_s : List ℚ)
    (scs : List Scenario) (sc : Scenario) (uf0 uf1 : UFun) (o : Nat × Nat)
    (hn : 2 ≤ n)
    (h : make_scenarios nsc (.inl n) rr s = .ok (scs, scs_s))
    (hsc : sc ∈ scs) (hufs : sc.ufuns = [uf0, uf1])
    (ho : o ∈ sc.outcome_space.outcomes) :
    dictGet uf0.values o + dictGet uf1.values o = 1 := by
  obtain ⟨m, s1, honein, -, hmem⟩ := make_scenarios_shape h
  have hm : m = n := by
    simp only [onein, Except.ok.injEq, Prod.mk.injEq] at honein
    exact honein.1.symm
  subst hm
  obtain ⟨i, u0, u1, hscEq⟩ := hmem sc hsc
  subst hscEq
  obtain ⟨huf0, huf1⟩ := scenarioOf_ufuns_eq hufs
  rw [scenarioOf_outcomes] at ho
  obtain ⟨j, hj, hoEq⟩ := mem_portionsIssue_elim ho
  subst hoEq
  rw [huf0, huf1]
  show dictGet (tableFun m 0) _ + dictGet (tableFun m 1) _ = 1
  rw [dictGet_tableFun hj, dictGet_tableFun hj]
  exact tableVal_sum hn hj

/-- Claim C2: in every scenario produced by `make_scenarios` with outcome
count `n`, outcome `i` carries the label encoding shares `(i, n-1-i)`, the
utility table of the first role assigns `i/(n-1)` to it and the table of
the second role assigns `(n-1-i)/(n-1)`; concretely for `n = 3` the outcomes encode
`(0,2), (1,1), (2,0)` with first-role values `[0, 1/2, 1]` and second-role
values `[1, 1/2, 0]`. -/
theorem make_scenarios_labels_and_values
    (nsc n i : Nat) (rr : (ℚ × ℚ) × (ℚ × ℚ)) (s scs_s : List ℚ)
    (scs : List Scenario) (sc : Scenario) (uf0 uf1 : UFun)
    (hn : 2 ≤ n) (hi : i < n)
    (h : make_scenarios nsc (.inl n) rr s = .ok (scs, scs_s))
    (hsc : sc ∈ scs) (hufs : sc.ufuns = [uf0, uf1]) :
    sc.outcome_space.outcomes[i]? = some (i, n - 1 - i)
    ∧ dictGet uf0.values (i, n - 1 - i) = (i : ℚ) / ((n : ℚ) - 1)
    ∧ dictGet uf1.values (i, n - 1 - i) = ((n : ℚ) - 1 - (i : ℚ)) / ((n : ℚ) - 1)
    ∧ portionsIssue 3 = [(0, 2), (1, 1), (2, 0)]
    ∧ (tableFun 3 0).map Prod.snd = [0, 1/2, 1]
    ∧ (tableFun 3 1).map Prod.snd = [1, 1/2, 0] := by
  obtain ⟨m, s1, honein, -, hmem⟩ := make_scenarios_shape h
  have hm : m = n := by
    simp only [onein, Except.ok.injEq, Prod.mk.injEq] at honein
    exact honein.1.symm
  subst hm
  obtain ⟨j, u0, u1, hscEq⟩ := hmem sc hsc
  subst hscEq
  obtain ⟨huf0, huf1⟩ := scenarioOf_ufuns_eq hufs
  have hcast : ((m - 1 - i : Nat) : ℚ) = (m : ℚ) - 1 - (i : ℚ) := by
    have h1 : m - 1 - i = m - (1 + i) := by omega
    rw [h1, Nat.cast_sub (by omega : 1 + i ≤ m)]
    push_cast
    ring
  refine ⟨?_, ?_, ?_, by decide, ?_, ?_⟩
  · rw [scenarioOf_outcomes]
    simp [portionsIssue, List.getElem?_map, hi]
  · rw [huf0]
    show dictGet (tableFun m 0) _ = _
    rw [dictGet_tableFun hi, splitShare_zero]
  · rw [huf1]
    show dictGet (tableFun m 1) _ = _
    rw [dictGet_tableFun hi, splitShare_one]
    exact congrArg (· / ((m : ℚ) - 1)) hcast
  · simp [tableFun, portionsIssue, splitShare, List.range_succ]
    norm_num
  · simp [tableFun, portionsIssue, splitShare, List.range_succ]
    norm_num

/-- Claim C3: for each role whose configured reserved range `(low, high)`
satisfies `high - low > ε` (`ε = 1e-8`), the reserved value sampled by
`make_scenarios` equals `low + ε + u * (high - low - ε)` for some uniform
draw `u ∈ [0, 1)`, and therefore satisfies `low < reserved < high` strictly,
for every generated scenario. -/
theorem make_scenarios_reserved_in_range
    (nsc : Nat) (spec : Nat ⊕ (Nat × Nat)) (rr : (ℚ × ℚ) × (ℚ × ℚ))
    (s scs_s : List ℚ) (scs : List Scenario) (sc : Scenario) (uf0 uf1 : UFun)
    (hb : Bounded01 s)
    (hr0 : eps < rr.1.2 - rr.1.1) (hr1 : eps < rr.2.2 - rr.2.1)
    (h : make_scenarios nsc spec rr s = .ok (scs, scs_s))
    (hsc : sc ∈ scs) (hufs : sc.ufuns = [uf0, uf1]) :
    (∃ u0, (0 ≤ u0 ∧ u0 < 1) ∧
        uf0.reserved_value = rr.1.1 + eps + u0 * (rr.1.2 - rr.1.1 - eps))
    ∧ rr.1.1 < uf0.reserved_value ∧ uf0.reserved_value < rr.1.2
    ∧ (∃ u1, (0 ≤ u1 ∧ u1 < 1) ∧
        uf1.reserved_value = rr.2.1 + eps + u1 * (rr.2.2 - rr.2.1 - eps))
    ∧ rr.2.1 < uf1.reserved_value ∧ uf1.reserved_value < rr.2.2 := by
  obtain ⟨n, s1, -, -, hmem⟩ := make_scenarios_mem hb h
  obtain ⟨i, u0, u1, hu0, hu1, hscEq⟩ := hmem sc hsc
  subst hscEq
  obtain ⟨huf0, huf1⟩ := scenarioOf_ufuns_eq hufs
  have hv0 : uf0.reserved_value = sampleReserved rr.1 u0 := by rw [huf0]; rfl
  have hv1 : uf1.reserved_value = sampleReserved rr.2 u1 := by rw [huf1]; rfl
  have hb0 := sampleReserved_bounds hr0 hu0.1 hu0.2
  have hb1 := sampleReserved_bounds hr1 hu1.1 hu1.2
  refine ⟨⟨u0, hu0, by rw [hv0]; rfl⟩, ?_, ?_, ⟨u1, hu1, by rw [hv1]; rfl⟩, ?_, ?_⟩
  · rw [hv0]; exact hb0.1
  · rw [hv0]; exact hb0.2
  · rw [hv1]; exact hb1.1
  · rw [hv1]; exact hb1.2

/-- Claim C4: under the default reserved ranges `((0, 0.499999)` for both
roles), every scenario produced by `make_scenarios` has the sum of its two
sampled reserved values strictly below `1`, so a non-empty bargaining zone
exists above both reservation points. -/
theorem make_scenarios_bargaining_zone
    (nsc : Nat) (spec : Nat ⊕ (Nat × Nat)) (s scs_s : List ℚ)
    (scs : List Scenario) (sc : Scenario) (uf0 uf1 : UFun)
    (hb : Bounded01 s)
    (h : make_scenarios nsc spec defaultReservedRanges s = .ok (scs, scs_s))
    (hsc : sc ∈ scs) (hufs : sc.ufuns = [uf0, uf1]) :
    uf0.reserved_value + uf1.reserved_value < 1 := by
  obtain ⟨n, s1, -, -, hmem⟩ := make_scenarios_mem hb h
  obtain ⟨i, u0, u1, hu0, hu1, hscEq⟩ := hmem sc hsc
  subst hscEq
  obtain ⟨huf0, huf1⟩ := scenarioOf_ufuns_eq hufs
  have hv0 : uf0.reserved_value = sampleReserved defaultReservedRanges.1 u0 := by
    rw [huf0]; rfl
  have hv1 : uf1.reserved_value = sampleReserved defaultReservedRanges.2 u1 := by
    rw [huf1]; rfl
  have hd0 : eps < defaultReservedRanges.1.2 - defaultReservedRanges.1.1 := by
    norm_num [eps, defaultReservedRanges]
  have hd1 : eps < defaultReservedRanges.2.2 - defaultReservedRanges.2.1 := by
    norm_num [eps, defaultReservedRanges]
  have hb0 := (sampleReserved_bounds hd0 hu0.1 hu0.2).2
  have hb1 := (sampleReserved_bounds hd1 hu1.1 hu1.2).2
  rw [hv0, hv1]
  have hhigh : defaultReservedRanges.1.2 = 499999 / 1000000 := rfl
  have hhigh2 : defaultReservedRanges.2.2 = 499999 / 1000000 := rfl
  rw [hhigh] at hb0
  rw [hhigh2] at hb1
  linarith

lemma onein_error_kind {spec : Nat ⊕ (Nat × Nat)} {s : List ℚ} {e : PyError}
    (h : onein spec s = .error e) : e = .valueError := by
  cases spec with
  | inl m => simp [onein] at h
  | inr ab =>
    obtain ⟨a, b⟩ := ab
    by_cases hab : a = b
    · simp [onein, hab] at h
    · simp only [onein, if_neg hab, randint] at h
      by_cases hba : b < a
      · rw [if_pos hba] at h
        injection h with h
        exact h.symm
      · rw [if_neg hba] at h
        cases h

lemma tableFun_keys (n k : Nat) : (tableFun n k).map Prod.fst = portionsIssue n := by
  simp only [tableFun, List.map_map]
  exact List.map_id _

/-- Claim C5 counterexample: `reserved_ranges` whose first range `(1/2, 2/5)`
violates `low < high` (and a fortiori `high - low > ε`) does not make
`make_scenarios` fail with `ConfigurationError` — the call succeeds and
produces a scenario. -/
theorem make_scenarios_invalid_range_accepted :
    isConfigurationError
        (make_scenarios 1 (.inl 2) ((1/2, 2/5), (0, 499999/1000000)) []) = false
    ∧ make_scenarios 1 (.inl 2) ((1/2, 2/5), (0, 499999/1000000)) [] =
        .ok ([scenarioOf 2 ((1/2, 2/5), (0, 499999/1000000)) 0 0 0], []) :=
  ⟨rfl, rfl⟩

/-- Claim C5 amended: `make_scenarios` performs no validation of
`reserved_ranges` at all — no call, whatever the ranges, fails with
`ConfigurationError` (the only errors it can produce are `ValueError` from
an inverted outcome-count range and `ZeroDivisionError` for outcome count
`1`). -/
theorem make_scenarios_never_configuration_error
    (nsc : Nat) (spec : Nat ⊕ (Nat × Nat)) (rr : (ℚ × ℚ) × (ℚ × ℚ))
    (s : List ℚ) :
    isConfigurationError (make_scenarios nsc spec rr s) = false := by
  cases honein : onein spec s with
  | error e =>
    simp only [make_scenarios, honein]
    rw [onein_error_kind honein]
    rfl
  | ok p =>
    obtain ⟨n, s1⟩ := p
    simp only [make_scenarios, honein]
    by_cases hcond : n = 1 ∧ 1 ≤ nsc
    · rw [if_pos hcond]; rfl
    · rw [if_neg hcond]; rfl

/-- Claim C6 counterexample: an outcome count resolving to `n = 1 < 2` does
not produce a `ConfigurationError`: with at least one scenario requested the
call fails with `ZeroDivisionError` (the `i/(n-1)` table division), and with
zero scenarios requested it does not fail at all. -/
theorem make_scenarios_small_count_not_config_error :
    make_scenarios 1 (.inl 1) defaultReservedRanges [] =
        .error .zeroDivisionError
    ∧ isConfigurationError
        (make_scenarios 1 (.inl 1) defaultReservedRanges []) = false
    ∧ make_scenarios 0 (.inl 1) defaultReservedRanges [] = .ok ([], []) :=
  ⟨rfl, rfl, rfl⟩

/-- Claim C6 amended: no outcome-count validation exists; when the outcome
count resolves to `1` and at least one scenario is requested,
`make_scenarios` fails with `ZeroDivisionError` (not `ConfigurationError`). -/
theorem make_scenarios_one_outcome_zero_division
    (nsc : Nat) (rr : (ℚ × ℚ) × (ℚ × ℚ)) (s : List ℚ) (h : 1 ≤ nsc) :
    make_scenarios nsc (.inl 1) rr s = .error .zeroDivisionError := by
  simp [make_scenarios, onein, h]

/-- Witness for the amended C6 theorem at `n_scenarios = 1`. -/
theorem make_scenarios_one_outcome_zero_division_w :
    make_scenarios 1 (.inl 1) ((0, 1), (0, 1)) [] = .error .zeroDivisionError :=
  make_scenarios_one_outcome_zero_division 1 ((0, 1), (0, 1)) [] (by decide)

/-- Claim C7: when `n_outcomes` is an inclusive range `(a, b)`, a single
outcome count `n ∈ [a, b]` is sampled once per call and every scenario of
the returned batch has exactly `n` outcomes; when `n_outcomes` is a fixed
count `m`, every scenario has exactly `m` outcomes. -/
theorem make_scenarios_outcome_count_shared
    (nsc a b m : Nat) (rr : (ℚ × ℚ) × (ℚ × ℚ)) (s scs_s scs2_s : List ℚ)
    (scs scs2 : List Scenario)
    (hab : a ≤ b) (hb : Bounded01 s)
    (hrange : make_scenarios nsc (.inr (a, b)) rr s = .ok (scs, scs_s))
    (hfixed : make_scenarios nsc (.inl m) rr s = .ok (scs2, scs2_s)) :
    (∃ n, a ≤ n ∧ n ≤ b ∧ ∀ sc ∈ scs, sc.outcome_space.outcomes.length = n)
    ∧ ∀ sc ∈ scs2, sc.outcome_space.outcomes.length = m := by
  constructor
  · obtain ⟨n, s1, honein, -, hmem⟩ := make_scenarios_shape hrange
    obtain ⟨hle1, hle2⟩ := onein_inr_range hab hb honein
    refine ⟨n, hle1, hle2, ?_⟩
    intro sc hsc
    obtain ⟨i, u0, u1, hscEq⟩ := hmem sc hsc
    subst hscEq
    rw [scenarioOf_outcomes]
    exact portionsIssue_length n
  · obtain ⟨n, s1, honein, -, hmem⟩ := make_scenarios_shape hfixed
    have hm : n = m := by
      simp only [onein, Except.ok.injEq, Prod.mk.injEq] at honein
      exact honein.1.symm
    subst hm
    intro sc hsc
    obtain ⟨i, u0, u1, hscEq⟩ := hmem sc hsc
    subst hscEq
    rw [scenarioOf_outcomes]
    exact portionsIssue_length n

/-- Claim C8: `make_scenarios` draws randomness only from the single
process-wide generator (the explicit draw stream of the embedding) and from
no other hidden state: its result is a function of its arguments and that
stream alone, so two calls with the same arguments and the same initial
generator state produce identical batches — same outcome counts, labels,
utility tables and reserved values. -/
theorem make_scenarios_deterministic
    (nsc : Nat) (spec : Nat ⊕ (Nat × Nat)) (rr : (ℚ × ℚ) × (ℚ × ℚ))
    (s1 s2 : List ℚ) (h : s1 = s2) :
    make_scenarios nsc spec rr s1 = make_scenarios nsc spec rr s2 := by
  rw [h]

/-- Witness for the C8 theorem at the default arguments and an explicit
seeded stream. -/
theorem make_scenarios_deterministic_w :
    make_scenarios 20 (.inl 100) defaultReservedRanges [1/2, 1/4] =
      make_scenarios 20 (.inl 100) defaultReservedRanges [1/2, 1/4] :=
  make_scenarios_deterministic 20 (.inl 100) defaultReservedRanges
    [1/2, 1/4] [1/2, 1/4] rfl

/-- Claim C9: with `nologs` the tournament receives no destination path
(persistence disabled); otherwise the destination is `base_path` (defaulting
to the default tournament directory) joined with the given name, or with a
freshly generated unique name when the name is absent. -/
theorem anl2024_tournament_path_spec
    (base_path : Option String) (nm freshName home : String) (hnm : nm ≠ "") :
    anl2024_tournament_path true base_path (some nm) freshName home = none
    ∧ anl2024_tournament_path true base_path none freshName home = none
    ∧ anl2024_tournament_path false base_path (some nm) freshName home =
        some ((base_path.getD (DEFAULT_TOURNAMENT_PATH home)) ++ "/" ++ nm)
    ∧ anl2024_tournament_path false base_path none freshName home =
        some ((base_path.getD (DEFAULT_TOURNAMENT_PATH home)) ++ "/" ++ freshName) := by
  cases base_path <;> simp [anl2024_tournament_path, hnm]

/-- Witness for the C9 theorem at concrete strings. -/
theorem anl2024_tournament_path_spec_w :
    anl2024_tournament_path true (some "base") (some "t") "anl-x" "home" = none
    ∧ anl2024_tournament_path true (some "base") none "anl-x" "home" = none
    ∧ anl2024_tournament_path false (some "base") (some "t") "anl-x" "home" =
        some (((some "base").getD (DEFAULT_TOURNAMENT_PATH "home")) ++ "/" ++ "t")
    ∧ anl2024_tournament_path false (some "base") none "anl-x" "home" =
        some (((some "base").getD (DEFAULT_TOURNAMENT_PATH "home")) ++ "/" ++ "anl-x") :=
  anl2024_tournament_path_spec (some "base") "t" "anl-x" "home" (by decide)

/-- Claim C10: a successful `make_scenarios` call returns exactly
`n_scenarios` scenarios (in particular `n_scenarios = 0` yields the empty
list without error), and every returned scenario carries exactly two utility
functions, each defined over the same outcomes as the outcome space of the
scenario. -/
theorem make_scenarios_batch_invariants
    (nsc : Nat) (spec : Nat ⊕ (Nat × Nat)) (rr : (ℚ × ℚ) × (ℚ × ℚ))
    (s scs_s : List ℚ) (scs : List Scenario)
    (h : make_scenarios nsc spec rr s = .ok (scs, scs_s)) :
    scs.length = nsc
    ∧ (∀ sc ∈ scs, sc.ufuns.length = 2
        ∧ ∀ uf ∈ sc.ufuns, uf.outcome_space = sc.outcome_space
            ∧ uf.values.map Prod.fst = sc.outcome_space.outcomes)
    ∧ ∀ m : Nat, make_scenarios 0 (.inl m) rr s = .ok ([], s) := by
  obtain ⟨n, s1, -, hlen, hmem⟩ := make_scenarios_shape h
  refine ⟨hlen, ?_, ?_⟩
  · intro sc hsc
    obtain ⟨i, u0, u1, hscEq⟩ := hmem sc hsc
    subst hscEq
    refine ⟨rfl, ?_⟩
    intro uf huf
    rcases List.mem_cons.mp huf with h0 | h0
    · subst h0
      exact ⟨rfl, tableFun_keys n 0⟩
    rcases List.mem_cons.mp h0 with h1 | h1
    · subst h1
      exact ⟨rfl, tableFun_keys n 1⟩
    · cases h1
  · intro m
    simp [make_scenarios, onein]
    rfl

/-- Witness for the C1 theorem: one scenario over two outcomes, empty-stream
draws. -/
theorem make_scenarios_zero_sum_w :
    dictGet (ufunOf 2 0 "First" (0, 1) 0 0).values (0, 1)
      + dictGet (ufunOf 2 1 "Second" (0, 1) 0 0).values (0, 1) = 1 :=
  make_scenarios_zero_sum 1 2 ((0, 1), (0, 1)) [] []
    [scenarioOf 2 ((0, 1), (0, 1)) 0 0 0] (scenarioOf 2 ((0, 1), (0, 1)) 0 0 0)
    (ufunOf 2 0 "First" (0, 1) 0 0) (ufunOf 2 1 "Second" (0, 1) 0 0) (0, 1)
    (by decide) rfl (List.mem_singleton.mpr rfl) rfl (by decide)

/-- Witness for the C2 theorem at `n = 2`, `i = 0`. -/
theorem make_scenarios_labels_and_values_w :
    (scenarioOf 2 ((0, 1), (0, 1)) 0 0 0).outcome_space.outcomes[0]? =
        some (0, 2 - 1 - 0)
    ∧ dictGet (ufunOf 2 0 "First" (0, 1) 0 0).values (0, 2 - 1 - 0) =
        ((0 : Nat) : ℚ) / (((2 : Nat) : ℚ) - 1)
    ∧ dictGet (ufunOf 2 1 "Second" (0, 1) 0 0).values (0, 2 - 1 - 0) =
        (((2 : Nat) : ℚ) - 1 - ((0 : Nat) : ℚ)) / (((2 : Nat) : ℚ) - 1)
    ∧ portionsIssue 3 = [(0, 2), (1, 1), (2, 0)]
    ∧ (tableFun 3 0).map Prod.snd = [0, 1/2, 1]
    ∧ (tableFun 3 1).map Prod.snd = [1, 1/2, 0] :=
  make_scenarios_labels_and_values 1 2 0 ((0, 1), (0, 1)) [] []
    [scenarioOf 2 ((0, 1), (0, 1)) 0 0 0] (scenarioOf 2 ((0, 1), (0, 1)) 0 0 0)
    (ufunOf 2 0 "First" (0, 1) 0 0) (ufunOf 2 1 "Second" (0, 1) 0 0)
    (by decide) (by decide) rfl (List.mem_singleton.mpr rfl) rfl

/-- Witness for the C3 theorem at the default reserved ranges. -/
theorem make_scenarios_reserved_in_range_w :
    (∃ u0, (0 ≤ u0 ∧ u0 < 1) ∧
        (ufunOf 2 0 "First" defaultReservedRanges.1 0 0).reserved_value =
          defaultReservedRanges.1.1 + eps +
            u0 * (defaultReservedRanges.1.2 - defaultReservedRanges.1.1 - eps))
    ∧ defaultReservedRanges.1.1 <
        (ufunOf 2 0 "First" defaultReservedRanges.1 0 0).reserved_value
    ∧ (ufunOf 2 0 "First" defaultReservedRanges.1 0 0).reserved_value <
        defaultReservedRanges.1.2
    ∧ (∃ u1, (0 ≤ u1 ∧ u1 < 1) ∧
        (ufunOf 2 1 "Second" defaultReservedRanges.2 0 0).reserved_value =
          defaultReservedRanges.2.1 + eps +
            u1 * (defaultReservedRanges.2.2 - defaultReservedRanges.2.1 - eps))
    ∧ defaultReservedRanges.2.1 <
        (ufunOf 2 1 "Second" defaultReservedRanges.2 0 0).reserved_value
    ∧ (ufunOf 2 1 "Second" defaultReservedRanges.2 0 0).reserved_value <
        defaultReservedRanges.2.2 :=
  make_scenarios_reserved_in_range 1 (.inl 2) defaultReservedRanges [] []
    [scenarioOf 2 defaultReservedRanges 0 0 0]
    (scenarioOf 2 defaultReservedRanges 0 0 0)
    (ufunOf 2 0 "First" defaultReservedRanges.1 0 0)
    (ufunOf 2 1 "Second" defaultReservedRanges.2 0 0)
    (by simp [Bounded01]) (by norm_num [eps, defaultReservedRanges])
    (by norm_num [eps, defaultReservedRanges]) rfl
    (List.mem_singleton.mpr rfl) rfl

/-- Witness for the C4 theorem at the default reserved ranges. -/
theorem make_scenarios_bargaining_zone_w :
    (ufunOf 2 0 "First" defaultReservedRanges.1 0 0).reserved_value
      + (ufunOf 2 1 "Second" defaultReservedRanges.2 0 0).reserved_value < 1 :=
  make_scenarios_bargaining_zone 1 (.inl 2) [] []
    [scenarioOf 2 defaultReservedRanges 0 0 0]
    (scenarioOf 2 defaultReservedRanges 0 0 0)
    (ufunOf 2 0 "First" defaultReservedRanges.1 0 0)
    (ufunOf 2 1 "Second" defaultReservedRanges.2 0 0)
    (by simp [Bounded01]) rfl (List.mem_singleton.mpr rfl) rfl

/-- Witness for the C7 theorem: the range `(2, 2)` and the fixed count `2`. -/
theorem make_scenarios_outcome_count_shared_w :
    (∃ n, 2 ≤ n ∧ n ≤ 2 ∧
        ∀ sc ∈ [scenarioOf 2 ((0, 1), (0, 1)) 0 0 0],
          sc.outcome_space.outcomes.length = n)
    ∧ ∀ sc ∈ [scenarioOf 2 ((0, 1), (0, 1)) 0 0 0],
        sc.outcome_space.outcomes.length = 2 :=
  make_scenarios_outcome_count_shared 1 2 2 2 ((0, 1), (0, 1)) [] [] []
    [scenarioOf 2 ((0, 1), (0, 1)) 0 0 0] [scenarioOf 2 ((0, 1), (0, 1)) 0 0 0]
    (by decide) (by simp [Bounded01]) rfl rfl

/-- Witness for the C10 theorem: one scenario over three outcomes. -/
theorem make_scenarios_batch_invariants_w :
    ([scenarioOf 3 ((0, 1), (0, 1)) 0 0 0] : List Scenario).length = 1
    ∧ (∀ sc ∈ [scenarioOf 3 ((0, 1), (0, 1)) 0 0 0], sc.ufuns.length = 2
        ∧ ∀ uf ∈ sc.ufuns, uf.outcome_space = sc.outcome_space
            ∧ uf.values.map Prod.fst = sc.outcome_space.outcomes)
    ∧ ∀ m : Nat, make_scenarios 0 (.inl m) ((0, 1), (0, 1)) [] = .ok ([], []) :=
  make_scenarios_batch_invariants 1 (.inl 3) ((0, 1), (0, 1)) [] []
    [scenarioOf 3 ((0, 1), (0, 1)) 0 0 0] rfl

end ANL2024
